import Mathlib

/-!
A verification development for the `dc26-vatican-explorer` scraping pipeline.

The Python sources are shallowly embedded: pure string manipulation is
translated to executable Lean functions over `List Char` / `String`, the
SQLite persistence layer is modelled as explicit state passing over typed
tables, and the side-effecting collaborators (HTTP fetching, the
BeautifulSoup HTML parser, `difflib.SequenceMatcher`, and the
`latin1`-encode/`utf-8`-decode codec round trip) appear as explicit
function parameters, so that every repository-owned decision point is
embedded concretely while external-library behaviour stays abstract.

Python string semantics are modelled for the character repertoire that the
scraper actually handles (ASCII URLs, HTML-derived text) plus the specific
non-ASCII characters named in individual definitions; each definition
documents the Python construct it translates.
-/

namespace VaticanScraper

/-! ## Python string primitives -/

/-- The characters stripped by Python `str.strip()` and matched by the regex
class `\s` on ASCII text: space, tab, newline, carriage return, vertical tab
and form feed. -/
def pyIsSpace (c : Char) : Bool :=
  c = ' ' || c = '\t' || c = '\n' || c = '\r' || c = '\x0b' || c = '\x0c'

/-- Python `str.strip()` on a character list: drop leading and trailing
whitespace. -/
def pyStripList (l : List Char) : List Char :=
  ((l.dropWhile pyIsSpace).reverse.dropWhile pyIsSpace).reverse

/-- Python `str.strip()`. -/
def pyStrip (s : String) : String :=
  ⟨pyStripList s.data⟩

/-- Split a character list on a separator character, keeping empty pieces,
like Python `str.split(sep)` with a one-character separator: splitting the
empty string yields one empty piece. -/
def splitOnCharList (sep : Char) : List Char → List (List Char)
  | [] => [[]]
  | c :: rest =>
    let r := splitOnCharList sep rest
    if c = sep then [] :: r
    else (c :: r.headI) :: r.tail

/-- Python `s.split(sep)` with a one-character separator. -/
def pySplit (s : String) (sep : Char) : List String :=
  (splitOnCharList sep s.data).map fun l => ⟨l⟩

/-- Python `s.split(sep, 1)` on a one-character separator: break at the first
occurrence, returning the piece before it and everything after it.  When the
separator does not occur the second component is `none`. -/
def pySplit1 (s : String) (sep : Char) : String × Option String :=
  let pre := s.data.takeWhile (· ≠ sep)
  if pre.length = s.data.length then (s, none)
  else (⟨pre⟩, some ⟨s.data.drop (pre.length + 1)⟩)

/-- Python `sep in s` for a one-character separator. -/
def pyContainsChar (s : String) (c : Char) : Bool :=
  s.data.any (· = c)

/-- Python `str.lower()` restricted to ASCII (the only case mapping the
scraper relies on): `A`-`Z` map to `a`-`z`, all other characters are kept. -/
def pyLower (s : String) : String :=
  ⟨s.data.map Char.toLower⟩

/-- Python `str.upper()` restricted to ASCII. -/
def pyUpper (s : String) : String :=
  ⟨s.data.map Char.toUpper⟩

/-- Replace each maximal run of whitespace by a single space, as
`re.sub(r"\s+", " ", t)` does.  The boolean flag records whether the previous
character was part of a whitespace run. -/
def collapseWsAux : Bool → List Char → List Char
  | _, [] => []
  | inRun, c :: rest =>
    if pyIsSpace c then
      if inRun then collapseWsAux true rest
      else ' ' :: collapseWsAux true rest
    else c :: collapseWsAux false rest

/-- `re.sub(r"\s+", " ", t)` on a string. -/
def collapseWs (s : String) : String :=
  ⟨collapseWsAux false s.data⟩

/-- Python `str.startswith` for a literal prefix. -/
def pyStartsWith (s pre : String) : Bool :=
  pre.data.isPrefixOf s.data

/-- Python `str.endswith` for a literal suffix. -/
def pyEndsWith (s suf : String) : Bool :=
  suf.data.reverse.isPrefixOf s.data.reverse

/-- Whether `pat` occurs as a contiguous substring of `l`
(Python `pat in s`). -/
def containsSub (pat : List Char) : List Char → Bool
  | [] => pat.isEmpty
  | l@(_ :: rest) => pat.isPrefixOf l || containsSub pat rest

/-- Python `pat in s` for strings. -/
def pyInStr (pat s : String) : Bool :=
  containsSub pat.data s.data

/-! ## Python digit handling

`str.isdigit` accepts every Unicode character of bidirectional digit type,
which is strictly larger than what `int()` accepts (decimal digits of
category `Nd`).  The compatibility superscript digits are the documented
example: `"²".isdigit()` is `True` while `int("²")` raises `ValueError`.
The model covers ASCII plus the three superscript digits `¹ ² ³`; on that
repertoire it agrees with CPython. -/

/-- Python `str.isdigit` on a single character (modelled repertoire: ASCII
plus the superscript digits `¹`, `²`, `³`). -/
def pyIsDigitChar (c : Char) : Bool :=
  c.isDigit || c = '¹' || c = '²' || c = '³'

/-- Python `s.isdigit()`: nonempty and all characters digits. -/
def pyIsDigitStr (s : String) : Bool :=
  !s.data.isEmpty && s.data.all pyIsDigitChar

/-- Numeric value of a list of ASCII decimal digits. -/
def digitsToNat (l : List Char) : Nat :=
  l.foldl (fun acc c => acc * 10 + (c.toNat - '0'.toNat)) 0

/-- Python `int(s)` as used in `parse_years`: the argument has already passed
`str.isdigit`, so `int` succeeds exactly when every character is a decimal
digit of category `Nd` (here: an ASCII digit) and raises `ValueError`
otherwise (e.g. on the superscript digit `²`). -/
def pyIntNat (s : String) : Except String Nat :=
  if !s.data.isEmpty && s.data.all Char.isDigit then
    .ok (digitsToNat s.data)
  else
    .error ("ValueError: invalid literal for int() with base 10: " ++ s)

/-! ## step02_list_pope_year_links.parse_years

The Python function accumulates a `set` of years and finally returns
`sorted(years)`.  The set is modelled as a duplicate-free list built with
membership-guarded insertion, and `sorted` as `List.insertionSort`. -/

/-- `years.add(n)`: insert into the accumulated set. -/
def pySetInsert (acc : List ℕ) (n : ℕ) : List ℕ :=
  if n ∈ acc then acc else n :: acc

/-- `years.update(range(lo, hi + 1))`: insert every year of the inclusive
range. -/
def pySetInsertRange (acc : List ℕ) (lo hi : ℕ) : List ℕ :=
  (List.range' lo (hi + 1 - lo)).foldl pySetInsert acc

/-- One iteration of the loop body of `parse_years` (lines 28-39 of
`step02_list_pope_year_links.py`): strip the component, skip it when empty,
treat it as a range when it contains a hyphen and both sides pass `isdigit`,
treat it as a single year when it passes `isdigit`, and ignore it otherwise.
`int()` may raise, which propagates. -/
def parseYearsStep (acc : List ℕ) (part : String) : Except String (List ℕ) := do
  let part := pyStrip part
  if part = "" then
    return acc
  else if pyContainsChar part '-' then
    -- `a, b = [x.strip() for x in part.split("-", 1)]`: the guard guarantees
    -- the separator occurs, so the split has exactly two pieces.
    let a := pyStrip (pySplit1 part '-').1
    let b := pyStrip ((pySplit1 part '-').2.getD "")
    if pyIsDigitStr a && pyIsDigitStr b then do
      let lo0 ← pyIntNat a
      let hi0 ← pyIntNat b
      let lo := if lo0 > hi0 then hi0 else lo0
      let hi := if lo0 > hi0 then lo0 else hi0
      return pySetInsertRange acc lo hi
    else
      return acc
  else if pyIsDigitStr part then do
    let n ← pyIntNat part
    return pySetInsert acc n
  else
    return acc

/-- `parse_years(spec)`: split on commas, process each component, and return
the sorted list of the accumulated set of years.  Raising (`ValueError` from
`int()`) is the `.error` case. -/
def parse_years (spec : String) : Except String (List ℕ) := do
  let years ← (pySplit spec ',').foldlM parseYearsStep []
  return years.insertionSort (· ≤ ·)

/-- Classifier for claim C9, written from the claim: a (stripped) component
that is an integer-integer hyphen range — it contains a hyphen and the
stripped pieces on both sides of the first one pass `isdigit`. -/
def specHyphenRangeComponent (p : String) : Bool :=
  pyContainsChar p '-' &&
    (pyIsDigitStr (pyStrip (pySplit1 p '-').1) &&
      pyIsDigitStr (pyStrip ((pySplit1 p '-').2.getD "")))

/-! ## step01_list_popes: display-name filtering

`re.match(p, s)` anchors at the start of `s`; a trailing `$` in the pattern
matches at the end of the string or just before a final newline.  The helper
`pyMatchAnchoredDollar core s` runs the body matcher `core` on the whole
string and, when the string ends in a newline, also on the string without
that newline. -/

/-- Python `re.match("^body$", s)` given a matcher `core` for `body` against
a whole character list. -/
def pyMatchAnchoredDollar (core : List Char → Bool) (s : String) : Bool :=
  core s.data || (s.data.getLast? == some '\n' && core s.data.dropLast)

/-- Character class `[IVXLCDM]` under `re.IGNORECASE`: the seven Roman
letters in either case. -/
def isRomanChar (c : Char) : Bool :=
  c ∈ ['I', 'V', 'X', 'L', 'C', 'D', 'M'] || c ∈ ['i', 'v', 'x', 'l', 'c', 'd', 'm']

/-- `_is_roman(token)`: `re.match(r"^[IVXLCDM]+$", token, re.IGNORECASE)`
(note the `IGNORECASE` flag in the source, line 25 of
`step01_list_popes.py`). -/
def is_roman (token : String) : Bool :=
  pyMatchAnchoredDollar (fun l => !l.isEmpty && l.all isRomanChar) token

/-- `_is_titlecase_word(token)`: `re.match(r"^[A-Z][a-z]+$", token)` — an
ASCII capital followed by one or more ASCII lowercase letters. -/
def is_titlecase_word (token : String) : Bool :=
  pyMatchAnchoredDollar
    (fun l =>
      match l with
      | c :: rest => c.isUpper && !rest.isEmpty && rest.all Char.isLower
      | [] => false)
    token

/-- `papal_normalize_display_name(text)`:
`re.sub(r"\s+", " ", (text or "").strip())`. -/
def papal_normalize_display_name (text : String) : String :=
  collapseWs (pyStrip text)

/-- `_looks_like_pope_display(name)` (lines 38-57 of
`step01_list_popes.py`): after normalization, accept a single title-case
word, or two or more words whose last token matches the (case-insensitive)
Roman-numeral pattern with all preceding tokens title-case. -/
def looks_like_pope_display (name : String) : Bool :=
  let name := papal_normalize_display_name name
  if name = "" then false
  else
    let parts := pySplit name ' '
    if parts.length = 1 then is_titlecase_word parts.headI
    else if !is_roman (parts.getLastD "") then false
    else parts.dropLast.all is_titlecase_word

/-- Specification-side predicate for claim C3: a capitalized word — an ASCII
capital followed by one or more ASCII lowercase letters. -/
def specTitlecaseWord (w : String) : Bool :=
  match w.data with
  | c :: rest => c.isUpper && !rest.isEmpty && rest.all Char.isLower
  | [] => false

/-- Specification-side predicate for claim C3 (amended): a nonempty token
made of Roman-numeral letters in either case (`^[IVXLCDM]+$` matched
case-insensitively). -/
def specRomanNumeralCI (w : String) : Bool :=
  !w.data.isEmpty && w.data.all isRomanChar

/-! ## step02_list_pope_year_links._sanitize_section -/

/-- Body of the section regex `[a-z][a-z0-9-]*`: an ASCII lowercase letter
followed by lowercase letters, digits or hyphens. -/
def sectionPatCore (l : List Char) : Bool :=
  match l with
  | c :: rest => c.isLower && rest.all (fun d => d.isLower || d.isDigit || d = '-')
  | [] => false

/-- `_sanitize_section(section)` (lines 52-56 of
`step02_list_pope_year_links.py`): strip and lowercase the argument, then
require a full match of `^[a-z][a-z0-9-]*$` (`re.match` with the pattern
anchored on both sides); raise `ValueError` otherwise. -/
def sanitize_section (sect : String) : Except String String :=
  let s := pyLower (pyStrip sect)
  if pyMatchAnchoredDollar sectionPatCore s then .ok s
  else .error ("ValueError: Bad section " ++ sect)

/-- The claim C7 speaks of section strings "whose case-folded form does not
match `^[a-z][a-z0-9-]*$`"; this is that predicate, written from the claim:
the case-folded (for ASCII: lowercased) input itself is matched, without any
whitespace stripping. -/
def specSectionCaseFoldMatches (sect : String) : Bool :=
  pyMatchAnchoredDollar sectionPatCore (pyLower sect)

/-! ## step04_fetch_speech_texts.fetch_speeches_to_feather: input validation

Lines 417-443 run before any network request: the language code is checked,
the section is sanitized, the year specification is parsed; only then is the
pope directory fetched.  Everything from the first fetch onwards is
abstracted as a continuation `rest`, so a result that is independent of
`rest` was produced without any network traffic. -/

/-- Python `str.isalpha` restricted to ASCII letters. -/
def pyIsAlphaStr (s : String) : Bool :=
  !s.data.isEmpty && s.data.all (fun c => c.isUpper || c.isLower)

/-- The language-code test of line 418:
`len(want_lang) == 2 and want_lang.isalpha()` on the stripped, uppercased
code. -/
def langCodeValid (lang : String) : Bool :=
  let wantLang := pyUpper (pyStrip lang)
  wantLang.data.length == 2 && pyIsAlphaStr wantLang

/-- The validation prefix of `fetch_speeches_to_feather` (lines 417-424):
normalize and check the requested language, sanitize the section, parse the
years and reject an empty year set.  Returns the validated
(language, section, years) triple. -/
def fetchSpeechesValidate (yearsSpec lang sect : String) :
    Except String (String × String × List ℕ) := do
  if !langCodeValid lang then
    .error ("SystemExit: Bad --lang value: " ++ lang)
  else do
    let sec ← sanitize_section sect
    let years ← parse_years yearsSpec
    if years.isEmpty then
      .error "SystemExit: No valid years parsed from --years."
    else
      return (pyUpper (pyStrip lang), sec, years)

/-- `fetch_speeches_to_feather` with everything after input validation — the
first network call onwards (line 426 on) — abstracted as the continuation
`rest`. -/
def fetch_speeches_to_feather {α : Type}
    (rest : String → String → List ℕ → Except String α)
    (yearsSpec lang sect : String) : Except String α := do
  let (wantLang, sec, years) ← fetchSpeechesValidate yearsSpec lang sect
  rest wantLang sec years

/-! ## step04_fetch_speech_texts: text normalization and similarity

`_maybe_fix_mojibake` re-decodes Latin-1-as-UTF-8 artifacts; the codec round
trip `s.encode("latin1", errors="ignore").decode("utf-8", errors="ignore")`
is external-library behaviour and is passed in as the `repair` parameter
(it is total, so the `except` branch of the source is unreachable).
`difflib.SequenceMatcher(None, a, b).ratio()` is likewise passed in as the
`ratioFn` parameter; the only fact about it used in concrete instances is
that two equal strings have ratio 1. -/

/-- `s.replace("\xa0", " ")`. -/
def replaceNbsp (s : String) : String :=
  ⟨s.data.map fun c => if c = '\xA0' then ' ' else c⟩

/-- `"â" in s or "Ã" in s or "Â" in s`. -/
def containsMojibakeMarker (s : String) : Bool :=
  s.data.any fun c => c = 'â' || c = 'Ã' || c = 'Â'

/-- `s.count("�")`: occurrences of the Unicode replacement character. -/
def countReplChar (s : String) : ℕ :=
  s.data.countP (· = '�')

/-- `_maybe_fix_mojibake` on a non-`None` string (lines 141-152): replace
non-breaking spaces, and when a mojibake marker is present, accept the
codec-repaired string if it is nonempty and does not increase the
replacement-character count. -/
def fixMojibakeStr (repair : String → String) (s : String) : String :=
  let s := replaceNbsp s
  if containsMojibakeMarker s then
    let repaired := repair s
    if repaired != "" && countReplChar repaired ≤ countReplChar s then repaired
    else s
  else s

/-- `_maybe_fix_mojibake` including the `None` pass-through. -/
def maybe_fix_mojibake (repair : String → String) : Option String → Option String :=
  Option.map (fixMojibakeStr repair)

/-- `_norm_text_for_compare(t)` (lines 109-116): empty for `None` or empty
input, else mojibake repair, non-breaking-space replacement, lowercasing and
whitespace collapsing with a final strip. -/
def norm_text_for_compare (repair : String → String) (t : Option String) : String :=
  match t with
  | none => ""
  | some s =>
    if s = "" then ""
    else pyStrip (collapseWs (pyLower (replaceNbsp (fixMojibakeStr repair s))))

/-- The similarity threshold `0.995` of line 139, as a rational in lowest
terms (199/200).  The explicit structure literal keeps the constant
kernel-computable; `similarityThreshold_eq_995div1000` below identifies it
with `995 / 1000`. -/
def similarityThreshold : ℚ := ⟨199, 200, by decide, by decide⟩

/-- `_is_effectively_same_text(a, b)` (lines 126-139): false when either
normalized text is empty or the shorter one has fewer than 300 characters;
otherwise compare the similarity ratio against 0.995. -/
def is_effectively_same_text (repair : String → String)
    (ratioFn : String → String → ℚ) (a b : Option String) : Bool :=
  let aa := norm_text_for_compare repair a
  let bb := norm_text_for_compare repair b
  if aa = "" || bb = "" then false
  else if min aa.data.length bb.data.length < 300 then false
  else decide (similarityThreshold ≤ ratioFn aa bb)

/-! ## step04_fetch_speech_texts: language detection from URLs

`_LANG_IN_URL_RE = re.compile(r"/content/[^/]+/([a-z]{2})(?:/|$)",
re.IGNORECASE)` used with `.search`.  Because `[^/]+` cannot cross a slash
and must be followed by one, a match at a given start position is forced:
the literal `/content/`, one full nonempty path segment, a slash, two ASCII
letters, then a slash or the end of the string (or the position before a
single trailing newline, which `$` also accepts). -/

/-- Case-insensitive literal prefix strip. -/
def stripPrefixCI : List Char → List Char → Option (List Char)
  | [], l => some l
  | _, [] => none
  | p :: ps, c :: cs => if c.toLower = p.toLower then stripPrefixCI ps cs else none

/-- Matcher for `[^/]+/([a-z]{2})(?:/|$)` immediately after `/content/`,
returning the uppercased two-letter group on success. -/
def langAfterContent (l : List Char) : Option String :=
  let seg := l.takeWhile (· ≠ '/')
  if seg.isEmpty then none
  else
    match l.drop seg.length with
    | '/' :: c1 :: c2 :: rest =>
      if (c1.isUpper || c1.isLower) && (c2.isUpper || c2.isLower) then
        match rest with
        | [] => some (pyUpper ⟨[c1, c2]⟩)
        | '/' :: _ => some (pyUpper ⟨[c1, c2]⟩)
        | ['\n'] => some (pyUpper ⟨[c1, c2]⟩)
        | _ => none
      else none
    | _ => none

/-- Leftmost-match scan of `_LANG_IN_URL_RE.search`. -/
def langFromUrlScan : List Char → Option String
  | [] => none
  | l@(_ :: t) =>
    match stripPrefixCI "/content/".data l with
    | some rest =>
      match langAfterContent rest with
      | some code => some code
      | none => langFromUrlScan t
    | none => langFromUrlScan t

/-- `_lang_from_url(url)` (lines 306-308): the uppercased two-letter language
path segment after the pope slug, when present. -/
def lang_from_url (url : String) : Option String :=
  langFromUrlScan url.data

/-! ## step04_fetch_speech_texts: translation-candidate resolution

The network fetch (`fetch_html_with_final_url`), the page-language
declaration (`_lang_from_html`, a BeautifulSoup lookup of the `<html lang>`
attribute) and the body-text extraction
(`extract_location_and_text(...)["text"]`, a BeautifulSoup traversal) are
external effects and appear as an oracle over an abstract page type `H`. -/

structure HtmlOracle (H : Type) where
  /-- `fetch_html_with_final_url(url)`; `none` models a raised request
  exception (caught by the loop and treated as a skip). -/
  fetchWithFinalUrl : String → Option (String × H)
  /-- `_lang_from_html(html)`. -/
  langOfHtml : H → Option String
  /-- `extract_location_and_text(html, url).get("text")` (the extracted body
  text does not depend on the URL argument). -/
  textOfHtml : H → Option String

/-- The candidate loop of `fetch_speeches_to_feather` (lines 515-540): for
each candidate URL in order, fetch it (skipping on exceptions), require the
final URL to carry the requested language segment, require any declared page
language to match, reject candidates whose extracted text is effectively the
same as the base text, and accept the first candidate passing all checks. -/
def tryTranslationCandidates {H : Type} (O : HtmlOracle H)
    (repair : String → String) (ratioFn : String → String → ℚ)
    (wantLang : String) (baseText : Option String) :
    List String → Option (String × H)
  | [] => none
  | c :: rest =>
    match O.fetchWithFinalUrl c with
    | none => tryTranslationCandidates O repair ratioFn wantLang baseText rest
    | some (candFinalUrl, candHtml) =>
      if lang_from_url candFinalUrl ≠ some wantLang then
        tryTranslationCandidates O repair ratioFn wantLang baseText rest
      else if (match O.langOfHtml candHtml with
               | some d => d != wantLang
               | none => false) then
        tryTranslationCandidates O repair ratioFn wantLang baseText rest
      else if is_effectively_same_text repair ratioFn baseText (O.textOfHtml candHtml) then
        tryTranslationCandidates O repair ratioFn wantLang baseText rest
      else
        some (candFinalUrl, candHtml)

/-- Python `x or y` on an optional string, where both `None` and the empty
string are falsy. -/
def pyOrStr (a : Option String) (b : String) : String :=
  match a with
  | some s => if s = "" then b else s
  | none => b

/-- The language-sensitive fields of the row dict appended at lines 557-576:
the recorded URL, the `lang_available` field and the body text. -/
structure SpeechLangRow where
  url : String
  langAvailable : Option String
  text : Option String
deriving DecidableEq, Repr

/-- Language-variant resolution and row assembly for one speech (lines
480-576, restricted to the language-sensitive fields): determine the base
language from the final base URL (falling back to the declared page
language, then `"EN"`), run the candidate loop when the requested language
differs, and fill the row from the served page — or from the sentinel text,
the base URL and a null `lang_available` when no candidate is accepted. -/
def speechLangRowOf {H : Type} (O : HtmlOracle H)
    (repair : String → String) (ratioFn : String → String → ℚ)
    (wantLang baseFinalUrl : String) (baseHtml : H)
    (candidates : List String) : SpeechLangRow :=
  let baseLang := pyOrStr (lang_from_url baseFinalUrl) (pyOrStr (O.langOfHtml baseHtml) "EN")
  let baseText := O.textOfHtml baseHtml
  let (finalUrl, finalHtml, servedLang) :=
    if wantLang = baseLang then (baseFinalUrl, baseHtml, baseLang)
    else
      match tryTranslationCandidates O repair ratioFn wantLang baseText candidates with
      | some (fu, fh) => (fu, fh, wantLang)
      | none => (baseFinalUrl, baseHtml, baseLang)
  let htmlForParse := if servedLang = wantLang then finalHtml else baseHtml
  let parsedText := O.textOfHtml htmlForParse
  { url := if servedLang = wantLang then finalUrl else baseFinalUrl
    langAvailable := if servedLang = wantLang then some servedLang else none
    text := if servedLang = wantLang then parsedText
            else some "Not available in the requested language." }

/-! ## step05_add_to_database: the SQLite persistence layer

The database file is modelled as its tables.  `DEFAULT_TABLE_SCHEMA`
creates exactly `popes` and `texts`; a table is `none` when the file does
not contain it (a fresh file contains none).  The legacy `speeches` table
(created only by the superseded `vatican-scraper/vingestion.py` revision,
with columns `id, pope, name, date, special, text, source_url, created_at`)
is kept generic so that the `db_utils` query against it can be given its
real SQL semantics: selecting on a column requires the column to exist.

SQL value semantics used below: `NULL` never compares equal to anything
under `=` (so a `WHERE col = ?` with a `None` parameter matches no row) and
`UNIQUE` constraints treat `NULL`s as distinct.  `INTEGER PRIMARY KEY`
rowids are assigned as one more than the current maximum.  With
`PRAGMA foreign_keys = ON`, the implicit delete performed by
`INSERT OR REPLACE` fires `ON DELETE CASCADE` actions. -/

structure PopeRow where
  id : ℕ
  name : Option String
  slug : Option String
  number : Option String
  secular : Option String
  birthplace : Option String
  pbegin : Option String
  pend : Option String
  created : String
deriving DecidableEq, Repr

structure TextRow where
  id : ℕ
  popeId : ℕ
  sect : Option String
  year : Option String
  date : Option String
  location : Option String
  title : Option String
  language : Option String
  url : Option String
  textContent : Option String
  created : String
deriving DecidableEq, Repr

/-- A table of the legacy `vingestion.py` schema: explicit column list and
positional rows. -/
structure LegacyTable where
  cols : List String
  rows : List (List (Option String))
deriving DecidableEq, Repr

structure VaticanDB where
  popesTbl : Option (List PopeRow)
  textsTbl : Option (List TextRow)
  speechesTbl : Option LegacyTable
deriving DecidableEq, Repr

/-- A freshly created database file (`sqlite3.connect` on a new path):
no tables at all. -/
def emptyDBFile : VaticanDB := ⟨none, none, none⟩

/-- `ensure_db_and_table(db_path)` (lines 51-67 of
`step05_add_to_database.py`): execute `DEFAULT_TABLE_SCHEMA`, i.e.
`CREATE TABLE IF NOT EXISTS popes ...; CREATE TABLE IF NOT EXISTS texts ...`.
No `speeches` table is created. -/
def ensure_db_and_table (db : VaticanDB) : VaticanDB :=
  { db with
    popesTbl := some (db.popesTbl.getD [])
    textsTbl := some (db.textsTbl.getD []) }

/-- `db_utils.speech_url_exists_in_db(db_path, url)` (lines 5-21 of
`db_utils.py`): run `SELECT 1 FROM speeches WHERE url = ? LIMIT 1` and
report whether a row came back; the bare `except:` turns every sqlite error
into `False`.  The query errors with `no such table: speeches` when the
table is absent, and with `no such column: url` when the legacy table (whose
URL column is `source_url`) is present. -/
def speech_url_exists_in_db (db : VaticanDB) (url : String) : Bool :=
  match db.speechesTbl with
  | none => false
  | some t =>
    match t.cols.indexOf? "url" with
    | none => false
    | some i => t.rows.any fun r => (r.getD i none) == some url

/-- The record dict consumed by `add_content_to_db`; `record.get(k)` yields
`None` for missing keys, so every field is optional. -/
structure SpeechRecordDict where
  pope : Option String
  pope_slug : Option String
  pope_number : Option String
  secular_name : Option String
  place_of_birth : Option String
  sect : Option String
  year : Option String
  pontificate_begin : Option String
  pontificate_end : Option String
  date : Option String
  location : Option String
  title : Option String
  language : Option String
  text : Option String
  url : Option String
deriving DecidableEq, Repr

/-- SQL `=` on two nullable text values: true only when both are non-`NULL`
and equal.  This is also the collision test of a `UNIQUE` constraint, whose
`NULL`s are pairwise distinct. -/
def sqlEqOpt (a b : Option String) : Bool :=
  match a, b with
  | some x, some y => x == y
  | _, _ => false

/-- The next rowid assigned by SQLite for an `INTEGER PRIMARY KEY` column:
one more than the current maximum. -/
def nextRowId (ids : List ℕ) : ℕ :=
  ids.foldr max 0 + 1

/-- Whether an existing pope row collides with the record on the natural key
`UNIQUE(pope_name, pope_number)`. -/
def popeKeyConflict (rec : SpeechRecordDict) (r : PopeRow) : Bool :=
  sqlEqOpt r.name rec.pope && sqlEqOpt r.number rec.pope_number

/-- The pope row inserted by `add_content_to_db`. -/
def newPopeRow (rec : SpeechRecordDict) (now : String) (id : ℕ) : PopeRow :=
  { id := id, name := rec.pope, slug := rec.pope_slug, number := rec.pope_number,
    secular := rec.secular_name, birthplace := rec.place_of_birth,
    pbegin := rec.pontificate_begin, pend := rec.pontificate_end, created := now }

/-- Whether an existing text row collides with the record inserted for pope
`pid` on the natural key `UNIQUE(pope_id, title, date)` (the inserted
`pope_id` is always a concrete integer). -/
def textKeyConflict (rec : SpeechRecordDict) (pid : ℕ) (t : TextRow) : Bool :=
  t.popeId == pid && sqlEqOpt t.title rec.title && sqlEqOpt t.date rec.date

/-- The text row inserted by `add_content_to_db`. -/
def newTextRow (rec : SpeechRecordDict) (pid : ℕ) (now : String) (id : ℕ) : TextRow :=
  { id := id, popeId := pid, sect := rec.sect, year := rec.year, date := rec.date,
    location := rec.location, title := rec.title, language := rec.language,
    url := rec.url, textContent := rec.text, created := now }

/-- The pope upsert (lines 110-122): `INSERT OR IGNORE` skips on a natural
key collision leaving `lastrowid` unchanged; `INSERT OR REPLACE` deletes
every colliding row — cascading the delete to `texts` rows referencing it —
and inserts a fresh row with a fresh rowid.  Returns the new `popes` rows,
the (possibly cascaded) `texts` rows and the cursor `lastrowid`. -/
def popeUpsert (rec : SpeechRecordDict) (replace : Bool) (now : String)
    (popes : List PopeRow) (texts : List TextRow) :
    List PopeRow × List TextRow × Option ℕ :=
  if replace then
    let keep := popes.filter fun r => !popeKeyConflict rec r
    let deletedIds := (popes.filter fun r => popeKeyConflict rec r).map (·.id)
    let textsKeep := texts.filter fun t => t.popeId ∉ deletedIds
    let nid := nextRowId (keep.map (·.id))
    (keep ++ [newPopeRow rec now nid], textsKeep, some nid)
  else
    if popes.any (popeKeyConflict rec) then (popes, texts, none)
    else
      let nid := nextRowId (popes.map (·.id))
      (popes ++ [newPopeRow rec now nid], texts, some nid)

/-- `SELECT _pope_id FROM popes WHERE pope_name = ? AND pope_number = ?`
(line 125): a `None` parameter matches nothing. -/
def findPopeId (rec : SpeechRecordDict) (popes : List PopeRow) : Option ℕ :=
  (popes.find? fun r => sqlEqOpt r.name rec.pope && sqlEqOpt r.number rec.pope_number).map (·.id)

/-- The text upsert (lines 132-138), given the resolved `pope_id`. -/
def textUpsert (rec : SpeechRecordDict) (replace : Bool) (now : String) (pid : ℕ)
    (texts : List TextRow) (lastrow : Option ℕ) : List TextRow × Option ℕ :=
  if replace then
    let keep := texts.filter fun t => !textKeyConflict rec pid t
    let nid := nextRowId (keep.map (·.id))
    (keep ++ [newTextRow rec pid now nid], some nid)
  else
    if texts.any (textKeyConflict rec pid) then (texts, lastrow)
    else
      let nid := nextRowId (texts.map (·.id))
      (texts ++ [newTextRow rec pid now nid], some nid)

/-- `add_content_to_db(db_path, record, replace)` (lines 69-144): ensure the
schema, upsert the pope row, commit, look up its surrogate id — raising
`ValueError` when the lookup fails, with the pope upsert already committed —
then upsert the text row and return `(cur.lastrowid or 0, _pope_id)`.  `now`
is the `entry_creation_date` UTC timestamp.  The returned database reflects
every committed write, also on the error path. -/
def add_content_to_db (db : VaticanDB) (rec : SpeechRecordDict) (replace : Bool)
    (now : String) : Except String (ℕ × ℕ) × VaticanDB :=
  let db := ensure_db_and_table db
  let popes := db.popesTbl.getD []
  let texts := db.textsTbl.getD []
  let pu := popeUpsert rec replace now popes texts
  match findPopeId rec pu.1 with
  | none =>
    (.error "ValueError: Pope not found in database.",
     { db with popesTbl := some pu.1, textsTbl := some pu.2.1 })
  | some pid =>
    let tu := textUpsert rec replace now pid pu.2.1 pu.2.2
    (.ok (tu.2.getD 0, pid),
     { db with popesTbl := some pu.1, textsTbl := some tu.1 })

/-- Referential integrity of the persisted schema: every `texts` row points
at an existing `popes` row. -/
def refIntegrity (db : VaticanDB) : Prop :=
  ∀ t ∈ db.textsTbl.getD [], ∃ p ∈ db.popesTbl.getD [], p.id = t.popeId

/-! ## step03_list_speeches: speech enumeration

BeautifulSoup parsing is abstracted at the selection boundary: a fetched
page is represented by what the code reads from it — the list of
`.documento ul li` items (each reduced to its `h2 a[href]` anchor, the text
of its `.data` element and its own text) and the list of all `a[href]`
attribute values in document order.  URL resolution (`urllib.parse.urljoin`)
is passed in as the parameter `uj`. -/

/-- The `h2 a[href]` anchor of a list item: its `href` attribute and its
`get_text(" ", strip=True)` text. -/
structure LiAnchor where
  href : String
  text : String
deriving DecidableEq, Repr

/-- One `.documento ul li` item as consumed by
`extract_speeches_from_year_index`. -/
structure LiItem where
  /-- `li.select_one("h2 a[href]")`, when present. -/
  anchor : Option LiAnchor
  /-- `li.select_one(".data").get_text(" ", strip=True)`, when the element
  is present. -/
  dataText : Option String
  /-- `li.get_text(" ", strip=True)`. -/
  liText : String
deriving DecidableEq, Repr

/-- A fetched page, reduced to the two selections the enumerator makes. -/
structure Page where
  docItems : List LiItem
  anchorHrefs : List String
deriving DecidableEq, Repr

/-- An enumerated speech stub: `{'title': ..., 'url': ..., 'date': ...}`. -/
structure SpeechStub where
  title : String
  url : String
  date : Option String
deriving DecidableEq, Repr

/-- Python `\w` on ASCII: letters, digits and underscore. -/
def isWordChar (c : Char) : Bool :=
  c.isUpper || c.isLower || c.isDigit || c = '_'

/-- Attempt of `\d{1,2}\s+[A-Z][a-z]+\s+\d{4}\b` at exactly this position
(the leading `\b` is checked by the caller), returning the matched
characters.  A run of three or more digits can never match `\d{1,2}`
followed by `\s+`, and the trailing `\b` forces exactly four year digits
followed by a non-word character or the end. -/
def dateMatchAt (l : List Char) : Option (List Char) :=
  let ds := l.takeWhile Char.isDigit
  if ds.length = 0 || ds.length > 2 then none
  else
    let rest1 := l.drop ds.length
    let sp1 := rest1.takeWhile pyIsSpace
    if sp1.isEmpty then none
    else
      match rest1.drop sp1.length with
      | [] => none
      | u :: rest2 =>
        if !u.isUpper then none
        else
          let lows := rest2.takeWhile Char.isLower
          if lows.isEmpty then none
          else
            let rest3 := rest2.drop lows.length
            let sp2 := rest3.takeWhile pyIsSpace
            if sp2.isEmpty then none
            else
              let rest4 := rest3.drop sp2.length
              let ys := rest4.takeWhile Char.isDigit
              if ys.length ≠ 4 then none
              else
                let ok := match rest4.drop 4 with
                  | [] => true
                  | c :: _ => !isWordChar c
                if ok then some (ds ++ sp1 ++ u :: lows ++ sp2 ++ ys) else none

/-- Leftmost scan of
`re.search(r"\b(\d{1,2}\s+[A-Z][a-z]+\s+\d{4})\b", text)`, tracking the
previous character for the leading word boundary. -/
def scanDateAux (prev : Option Char) : List Char → Option (List Char)
  | [] => none
  | l@(c :: rest) =>
    let boundaryOk := match prev with
      | none => true
      | some p => !isWordChar p
    if boundaryOk then
      match dateMatchAt l with
      | some g => some g
      | none => scanDateAux (some c) rest
    else scanDateAux (some c) rest

/-- The `group(1)` of the date regex search, when it matches. -/
def searchDateGroup (s : String) : Option String :=
  (scanDateAux none s.data).map fun l => ⟨l⟩

/-- The loop body of `extract_speeches_from_year_index` (lines 86-113 of
`step03_list_speeches.py`): for each item require the anchor, resolve the
URL, require the pope slug and section segments in the path, extract the
date from the `.data` element or by regex scan, and deduplicate by absolute
URL within this page via the `seen` set. -/
def extractSpeechesLoop (uj : String → String → String)
    (pageUrl slug sec : String) : List LiItem → List String → List SpeechStub
  | [], _ => []
  | li :: rest, seen =>
    match li.anchor with
    | none => extractSpeechesLoop uj pageUrl slug sec rest seen
    | some a =>
      let absUrl := uj pageUrl a.href
      if !pyInStr ("/content/" ++ slug ++ "/") absUrl then
        extractSpeechesLoop uj pageUrl slug sec rest seen
      else if !pyInStr ("/" ++ sec ++ "/") absUrl then
        extractSpeechesLoop uj pageUrl slug sec rest seen
      else
        let dt0 := match li.dataText with
          | some d => d
          | none => ""
        let dateText := if dt0 != "" then some dt0 else searchDateGroup li.liText
        if absUrl ∈ seen then extractSpeechesLoop uj pageUrl slug sec rest seen
        else
          { title := a.text, url := absUrl, date := dateText } ::
            extractSpeechesLoop uj pageUrl slug sec rest (absUrl :: seen)

/-- `extract_speeches_from_year_index(html, url, slug, section)`
(lines 71-115): sanitize the section (which may raise), then run the item
loop with an empty seen-set. -/
def extract_speeches_from_year_index (uj : String → String → String)
    (page : Page) (pageUrl slug sectArg : String) :
    Except String (List SpeechStub) := do
  let sec ← sanitize_section sectArg
  return extractSpeechesLoop uj pageUrl slug sec page.docItems []

/-- Full anchored-at-end match of
`/content/<slug>/en/speeches/<year>/[a-z]+(\.index)?\.html?` against a
lowercased character list: the literal prefix, a nonempty letter run, then
one of the four admissible tails.  (The letter run cannot contain a dot, so
the optional `.index` group is forced.) -/
def monthTailMatch (pat : List Char) (l : List Char) : Bool :=
  if pat.isPrefixOf l then
    let r := l.drop pat.length
    let letters := r.takeWhile Char.isLower
    if letters.isEmpty then false
    else
      let r2 := r.drop letters.length
      r2 = ".html".data || r2 = ".htm".data ||
        r2 = ".index.html".data || r2 = ".index.htm".data
  else false

/-- `re.search` with a `$`-anchored pattern: some suffix of the subject
matches the pattern up to the end. -/
def anySuffixMatch (pat : List Char) : List Char → Bool
  | [] => monthTailMatch pat []
  | l@(_ :: t) => monthTailMatch pat l || anySuffixMatch pat t

/-- The month-link pattern test of `extract_month_links_for_speeches`
(lines 131-134): `IGNORECASE` is modelled by lowercasing both the subject
and the escaped literals; `$` also matches before a single trailing
newline. -/
def monthHrefMatch (slug year href : String) : Bool :=
  let pat := ("/content/" ++ pyLower slug ++ "/en/speeches/" ++ pyLower year ++ "/").data
  let l := (pyLower href).data
  anySuffixMatch pat l ||
    (match l.getLast? with
     | some '\n' => anySuffixMatch pat l.dropLast
     | _ => false)

/-- The anchor loop of `extract_month_links_for_speeches` (lines 136-146):
keep hrefs matching the month pattern, resolve them, and deduplicate by
absolute URL preserving page order. -/
def monthLinksLoop (uj : String → String → String) (pageUrl slug year : String) :
    List String → List String → List String
  | [], _ => []
  | href :: rest, seen =>
    if !monthHrefMatch slug year href then monthLinksLoop uj pageUrl slug year rest seen
    else
      let absUrl := uj pageUrl href
      if absUrl ∈ seen then monthLinksLoop uj pageUrl slug year rest seen
      else absUrl :: monthLinksLoop uj pageUrl slug year rest (absUrl :: seen)

/-- `extract_month_links_for_speeches(year_html, year_url, pope_slug, year)`
(lines 118-146). -/
def extract_month_links_for_speeches (uj : String → String → String)
    (page : Page) (pageUrl slug year : String) : List String :=
  monthLinksLoop uj pageUrl slug year page.anchorHrefs []

/-- `idx_url.replace(".index.html", ".html")`: Python `str.replace`
substitutes every occurrence, scanning left to right. -/
def replaceIndexHtmlList (l : List Char) : List Char :=
  match l with
  | [] => []
  | c :: rest =>
    if h : ".index.html".data.isPrefixOf (c :: rest) then
      ".html".data ++ replaceIndexHtmlList ((c :: rest).drop 11)
    else
      c :: replaceIndexHtmlList rest
termination_by l.length
decreasing_by
  · have hp : ".index.html".data <+: (c :: rest) := List.isPrefixOf_iff_prefix.mp h
    have hlen : 11 ≤ (c :: rest).length := by
      have := hp.length_le
      simpa using this
    simp only [List.length_drop]
    omega
  · simp

/-- `idx_url.replace(".index.html", ".html")`. -/
def replaceIndexHtml (s : String) : String :=
  ⟨replaceIndexHtmlList s.data⟩

/-- The month-URL discovery of `collect_speeches_for_year_index`
(lines 163-170): month links from the year index page, retried on the
non-index variant of the year URL when the index variant has none and the
URL ends in `.index.html`. -/
def monthUrlsFor (uj : String → String → String) (fetcher : String → Page)
    (idxPage : Page) (idxUrl slug year : String) : List String :=
  let mu0 := extract_month_links_for_speeches uj idxPage idxUrl slug year
  if mu0.isEmpty && pyEndsWith idxUrl ".index.html" then
    let altUrl := replaceIndexHtml idxUrl
    extract_month_links_for_speeches uj (fetcher altUrl) altUrl slug year
  else mu0

/-- `collect_speeches_for_year_index(...)` (lines 149-176): extract items
from the year page; when none are found and the section is `speeches`,
discover month sub-pages, fetch each, and extend the (empty) result with
each month page's extracted items in order. -/
def collect_speeches_for_year_index (uj : String → String → String)
    (fetcher : String → Page) (idxPage : Page)
    (idxUrl slug sectArg year : String) : Except String (List SpeechStub) := do
  let speeches ← extract_speeches_from_year_index uj idxPage idxUrl slug sectArg
  if speeches.isEmpty then do
    let sec ← sanitize_section sectArg
    if sec = "speeches" then do
      let mu := monthUrlsFor uj fetcher idxPage idxUrl slug year
      let parts ← mu.mapM fun m =>
        extract_speeches_from_year_index uj (fetcher m) m slug sectArg
      return speeches ++ parts.flatten
    else return speeches
  else return speeches

/-! ## step04_fetch_speech_texts.extract_links_from_container

The container argument is a BeautifulSoup element; the function only reads
`container.find_all("a", href=True)`, so the container is modelled as the
list of those anchors' `href` values in document order (`none` for a `None`
container). -/

/-- `urllib.parse.urldefrag(u)[0]`: everything before the first `#`. -/
def urldefragStr (s : String) : String :=
  ⟨s.data.takeWhile (· ≠ '#')⟩

/-- The anchor loop of `extract_links_from_container` (lines 270-283): strip
the href, skip empty and `mailto:`/`javascript:`/`tel:` links, resolve
against the base URL, drop the fragment, and deduplicate via the seen-set
keeping first occurrences. -/
def extractLinksLoop (uj : String → String → String) (baseUrl : String) :
    List String → List String → List String
  | [], _ => []
  | a :: rest, seen =>
    let href := pyStrip a
    if href = "" then extractLinksLoop uj baseUrl rest seen
    else if pyStartsWith href "mailto:" || pyStartsWith href "javascript:" ||
        pyStartsWith href "tel:" then
      extractLinksLoop uj baseUrl rest seen
    else
      let absUrl := urldefragStr (uj baseUrl href)
      if absUrl ∈ seen then extractLinksLoop uj baseUrl rest seen
      else absUrl :: extractLinksLoop uj baseUrl rest (absUrl :: seen)

/-- `extract_links_from_container(container, base_url)` (lines 260-284). -/
def extract_links_from_container (uj : String → String → String)
    (container : Option (List String)) (baseUrl : String) : List String :=
  match container with
  | none => []
  | some anchors => extractLinksLoop uj baseUrl anchors []

/-! Specification-side counterparts for C10, written from the claim: the
normalization applied to a single anchor href, and first-occurrence
deduplication. -/

/-- The claim's per-anchor normalization: the stripped href, excluded when
empty or a `mailto:`/`javascript:`/`tel:` link, otherwise resolved to an
absolute URL with its fragment removed. -/
def specNormalizedLink (uj : String → String → String) (baseUrl href : String) :
    Option String :=
  let h := pyStrip href
  if h = "" then none
  else if pyStartsWith h "mailto:" || pyStartsWith h "javascript:" ||
      pyStartsWith h "tel:" then none
  else some (urldefragStr (uj baseUrl h))

/-- Deduplication keeping the first occurrence, in order. -/
def dedupFirstOccurrence {α : Type} [DecidableEq α] : List α → List α
  | [] => []
  | x :: xs => x :: dedupFirstOccurrence (xs.filter (· ≠ x))
termination_by l => l.length
decreasing_by
  simp only [List.length_cons]
  exact Nat.lt_succ_of_le (List.length_filter_le _ _)


/-! ## Concrete fixtures used by witnesses and counterexamples -/

/-- The URL of the sample record below. -/
def sampleSpeechUrl : String :=
  "https://www.vatican.va/content/francesco/en/angelus/2024/documents/ang.html"

/-- A fully populated speech record, as produced by the pipeline for an
English angelus. -/
def sampleRecord : SpeechRecordDict :=
  { pope := some "Francis", pope_slug := some "francesco", pope_number := some "266",
    secular_name := some "Jorge Mario Bergoglio", place_of_birth := some "Buenos Aires",
    sect := some "angelus", year := some "2024",
    pontificate_begin := some "13 March 2013", pontificate_end := none,
    date := some "1 January 2024", location := some "Saint Peter Square",
    title := some "Angelus", language := none, text := some "Dear brothers and sisters",
    url := some sampleSpeechUrl }

/-- A record with every field missing (`record.get` yields `None`
throughout); the pope lookup can never find it. -/
def noPopeRecord : SpeechRecordDict :=
  { pope := none, pope_slug := none, pope_number := none, secular_name := none,
    place_of_birth := none, sect := none, year := none, pontificate_begin := none,
    pontificate_end := none, date := none, location := none, title := none,
    language := none, text := none, url := none }

/-- A concrete page oracle over `H := String` where a page is its own body
text: every fetch succeeds and returns the candidate URL unchanged with the
fixed body, no page declares a language, and extraction returns the body. -/
def fixtureOracle (body : String) : HtmlOracle String :=
  { fetchWithFinalUrl := fun u => some (u, body)
    langOfHtml := fun _ => none
    textOfHtml := fun t => some t }

/-- A concrete similarity stand-in: 1 on equal strings, 0 otherwise.
`difflib.SequenceMatcher(None, a, a).ratio()` is exactly 1, so on the equal
pairs used in the counterexample this agrees with the library. -/
def ratioEqOne : String → String → ℚ :=
  fun a b => if a = b then 1 else 0

/-- An Italian-language candidate URL. -/
def itCandidateUrl : String :=
  "https://www.vatican.va/content/francesco/it/angelus/doc1.html"

/-- The English base page URL of the same document. -/
def enBaseUrl : String :=
  "https://www.vatican.va/content/francesco/en/angelus/doc1.html"

/-- A short body (normalized length far below 300 characters). -/
def shortBody : String := "Testo identico alla pagina inglese."

/-- A 310-character body used as the base text of long pages. -/
def longBase : String := ⟨List.replicate 310 'a'⟩

/-- A different 310-character body used as the candidate text. -/
def longCand : String := ⟨List.replicate 310 'b'⟩

/-- The identity URL resolver: `urljoin(base, href)` returns `href`
unchanged whenever `href` is already absolute, which is the case for every
href in the month-aggregation fixtures below. -/
def ujId : String → String → String := fun _ rel => rel

/-- A year-index URL for the month-paginated speeches section. -/
def idxUrl2024 : String :=
  "https://www.vatican.va/content/francesco/en/speeches/2024.index.html"

/-- Two month sub-page URLs of that year. -/
def month1Url : String :=
  "https://www.vatican.va/content/francesco/en/speeches/2024/january.html"

def month2Url : String :=
  "https://www.vatican.va/content/francesco/en/speeches/2024/february.html"

/-- One speech document URL listed on the month pages. -/
def speechHref : String :=
  "https://www.vatican.va/content/francesco/en/speeches/2024/january/documents/speech1.html"

/-- A list item pointing at that speech. -/
def speechLi : LiItem :=
  { anchor := some { href := speechHref, text := "A speech" },
    dataText := some "5 January 2024",
    liText := "5 January 2024 A speech" }

/-- A month page listing the speech once. -/
def monthPage : Page := { docItems := [speechLi], anchorHrefs := [] }

/-- A year-index page with zero `.documento` items whose anchors point at
the two month pages. -/
def yearIdxPage : Page := { docItems := [], anchorHrefs := [month1Url, month2Url] }

/-- A fetcher that serves the same month page for every URL. -/
def monthFetcher : String → Page := fun _ => monthPage

/-- The speech stub extracted from `speechLi`. -/
def speechStub1 : SpeechStub :=
  { title := "A speech", url := speechHref, date := some "5 January 2024" }

/-! # Theorems -/

/-! ## parse_years: shared lemmas -/

theorem mem_of_mem_pyStripList {c : Char} {l : List Char} (h : c ∈ pyStripList l) : c ∈ l := by
  unfold pyStripList at h
  rw [List.mem_reverse] at h
  have h1 := (List.dropWhile_sublist pyIsSpace).subset h
  rw [List.mem_reverse] at h1
  exact (List.dropWhile_sublist pyIsSpace).subset h1

theorem splitOnCharList_ne_nil (sep : Char) (l : List Char) : splitOnCharList sep l ≠ [] := by
  induction l with
  | nil => simp [splitOnCharList]
  | cons c rest ih =>
    simp only [splitOnCharList]
    split <;> simp

theorem mem_of_mem_splitOnCharList {sep : Char} :
    ∀ {l t : List Char}, t ∈ splitOnCharList sep l → ∀ {c : Char}, c ∈ t → c ∈ l ∧ c ≠ sep := by
  intro l
  induction l with
  | nil =>
    intro t ht c hc
    simp [splitOnCharList] at ht
    subst ht
    simp at hc
  | cons d rest ih =>
    intro t ht c hc
    simp only [splitOnCharList] at ht
    by_cases hd : d = sep
    · rw [if_pos hd] at ht
      rcases List.mem_cons.mp ht with h1 | h2
      · subst h1; simp at hc
      · have := ih h2 hc
        exact ⟨List.mem_cons_of_mem _ this.1, this.2⟩
    · rw [if_neg hd] at ht
      obtain ⟨rh, rt, hr⟩ := List.exists_cons_of_ne_nil (splitOnCharList_ne_nil sep rest)
      rw [hr] at ht
      simp only [List.headI_cons, List.tail_cons] at ht
      rcases List.mem_cons.mp ht with h1 | h2
      · subst h1
        rcases List.mem_cons.mp hc with h1 | h2
        · subst h1; exact ⟨List.mem_cons_self _ _, hd⟩
        · have hmem : rh ∈ splitOnCharList sep rest := by
            rw [hr]; exact List.mem_cons_self _ _
          have := ih hmem h2
          exact ⟨List.mem_cons_of_mem _ this.1, this.2⟩
      · have ht2 : t ∈ splitOnCharList sep rest := by
          rw [hr]; exact List.mem_cons_of_mem _ h2
        have := ih ht2 hc
        exact ⟨List.mem_cons_of_mem _ this.1, this.2⟩

theorem pySetInsert_nodup {acc : List ℕ} (h : acc.Nodup) (n : ℕ) : (pySetInsert acc n).Nodup := by
  unfold pySetInsert
  split_ifs with hm
  · exact h
  · exact List.nodup_cons.mpr ⟨hm, h⟩

theorem pySetInsertRange_nodup {acc : List ℕ} (h : acc.Nodup) (lo hi : ℕ) :
    (pySetInsertRange acc lo hi).Nodup := by
  unfold pySetInsertRange
  generalize List.range' lo (hi + 1 - lo) = r
  induction r generalizing acc with
  | nil => exact h
  | cons x r ih => exact ih (pySetInsert_nodup h x)

theorem parseYearsStep_ok_shape {acc : List ℕ} {part : String} {res : List ℕ}
    (h : parseYearsStep acc part = .ok res) :
    res = acc ∨ (∃ lo hi, res = pySetInsertRange acc lo hi) ∨ ∃ n, res = pySetInsert acc n := by
  simp only [parseYearsStep] at h
  split at h
  · simp only [pure, Except.pure, Except.ok.injEq] at h
    exact Or.inl h.symm
  · split at h
    · split at h
      · cases hA : pyIntNat (pyStrip (pySplit1 (pyStrip part) '-').1) with
        | error e => rw [hA] at h; simp [Bind.bind, Except.bind] at h
        | ok lo0 =>
          rw [hA] at h
          cases hB : pyIntNat (pyStrip ((pySplit1 (pyStrip part) '-').2.getD "")) with
          | error e => rw [hB] at h; simp [Bind.bind, Except.bind] at h
          | ok hi0 =>
            rw [hB] at h
            simp only [Bind.bind, Except.bind, pure, Except.pure, Except.ok.injEq] at h
            exact Or.inr (Or.inl ⟨_, _, h.symm⟩)
      · simp only [pure, Except.pure, Except.ok.injEq] at h
        exact Or.inl h.symm
    · split at h
      · cases hA : pyIntNat (pyStrip part) with
        | error e => rw [hA] at h; simp [Bind.bind, Except.bind] at h
        | ok n =>
          rw [hA] at h
          simp only [Bind.bind, Except.bind, pure, Except.pure, Except.ok.injEq] at h
          exact Or.inr (Or.inr ⟨n, h.symm⟩)
      · simp only [pure, Except.pure, Except.ok.injEq] at h
        exact Or.inl h.symm

theorem parseYearsStep_ok_nodup {acc : List ℕ} {part : String} {res : List ℕ}
    (h : parseYearsStep acc part = .ok res) (hacc : acc.Nodup) : res.Nodup := by
  rcases parseYearsStep_ok_shape h with rfl | ⟨lo, hi, rfl⟩ | ⟨n, rfl⟩
  · exact hacc
  · exact pySetInsertRange_nodup hacc lo hi
  · exact pySetInsert_nodup hacc n

theorem parseYears_foldlM_nodup (parts : List String) :
    ∀ acc : List ℕ, acc.Nodup →
      ∀ res, List.foldlM parseYearsStep acc parts = .ok res → res.Nodup := by
  induction parts with
  | nil =>
    intro acc h res hres
    simp only [List.foldlM_nil, pure, Except.pure, Except.ok.injEq] at hres
    exact hres ▸ h
  | cons p ps ih =>
    intro acc h res hres
    rw [List.foldlM_cons] at hres
    cases hstep : parseYearsStep acc p with
    | error e => rw [hstep] at hres; simp [Bind.bind, Except.bind] at hres
    | ok acc2 =>
      rw [hstep] at hres
      simp only [Bind.bind, Except.bind] at hres
      exact ih acc2 (parseYearsStep_ok_nodup hstep h) res hres

theorem mem_of_mem_pySplit1_fst {s : String} {sep c : Char}
    (h : c ∈ (pySplit1 s sep).1.data) : c ∈ s.data := by
  simp only [pySplit1] at h
  split at h
  · exact h
  · exact (List.takeWhile_sublist _).subset h

theorem mem_of_mem_pySplit1_snd {s : String} {sep c : Char}
    (h : c ∈ ((pySplit1 s sep).2.getD "").data) : c ∈ s.data := by
  simp only [pySplit1] at h
  split at h
  · simp [String.data] at h
  · exact (List.drop_sublist _ _).subset h

theorem pyIntNat_ok_of_digits {s : String} (h : pyIsDigitStr s = true)
    (hascii : ∀ c ∈ s.data, pyIsDigitChar c = true → c.isDigit = true) :
    pyIntNat s = .ok (digitsToNat s.data) := by
  unfold pyIsDigitStr at h
  rw [Bool.and_eq_true] at h
  have h2 : s.data.all Char.isDigit = true := by
    rw [List.all_eq_true]
    intro c hc
    exact hascii c hc (List.all_eq_true.mp h.2 c hc)
  unfold pyIntNat
  rw [if_pos (by rw [Bool.and_eq_true]; exact ⟨h.1, h2⟩)]

theorem parseYearsStep_total {part : String}
    (hascii : ∀ c ∈ part.data, pyIsDigitChar c = true → c.isDigit = true) (acc : List ℕ) :
    ∃ res, parseYearsStep acc part = .ok res := by
  have hstrip : ∀ c ∈ (pyStrip part).data, pyIsDigitChar c = true → c.isDigit = true :=
    fun c hc => hascii c (mem_of_mem_pyStripList hc)
  simp only [parseYearsStep]
  split
  · exact ⟨acc, rfl⟩
  · split
    · split
      · rename_i hgate
        rw [Bool.and_eq_true] at hgate
        have hA := pyIntNat_ok_of_digits hgate.1
          (fun c hc => hstrip c (mem_of_mem_pySplit1_fst (mem_of_mem_pyStripList hc)))
        have hB := pyIntNat_ok_of_digits hgate.2
          (fun c hc => hstrip c (mem_of_mem_pySplit1_snd (mem_of_mem_pyStripList hc)))
        rw [hA, hB]
        exact ⟨_, rfl⟩
      · exact ⟨acc, rfl⟩
    · split
      · rename_i hd
        have hA := pyIntNat_ok_of_digits hd hstrip
        rw [hA]
        exact ⟨_, rfl⟩
      · exact ⟨acc, rfl⟩

theorem parseYears_foldlM_total (parts : List String)
    (hparts : ∀ part ∈ parts, ∀ c ∈ part.data, pyIsDigitChar c = true → c.isDigit = true) :
    ∀ acc : List ℕ, ∃ res, List.foldlM parseYearsStep acc parts = .ok res := by
  induction parts with
  | nil => intro acc; exact ⟨acc, rfl⟩
  | cons p ps ih =>
    intro acc
    obtain ⟨acc2, hacc2⟩ := parseYearsStep_total (hparts p (List.mem_cons_self _ _)) acc
    obtain ⟨res, hres⟩ := ih (fun part hp => hparts part (List.mem_cons_of_mem _ hp)) acc2
    refine ⟨res, ?_⟩
    rw [List.foldlM_cons, hacc2]
    simpa [Bind.bind, Except.bind] using hres

/-- C6: for every year-spec string on which `parse_years` returns (single
years, comma lists and hyphen ranges all do), the result is a sorted,
duplicate-free list of integers; `"2019,2021-2023"` yields
`[2019, 2021, 2022, 2023]` and the reversed range `"2023-2021"` yields
`[2021, 2022, 2023]`. -/
theorem parse_years_sorted_dedup :
    (∀ spec l, parse_years spec = .ok l → l.Sorted (· ≤ ·) ∧ l.Nodup) ∧
    parse_years "2019,2021-2023" = .ok [2019, 2021, 2022, 2023] ∧
    parse_years "2023-2021" = .ok [2021, 2022, 2023] := by
  refine ⟨?_, rfl, rfl⟩
  intro spec l h
  unfold parse_years at h
  cases hf : (pySplit spec ',').foldlM parseYearsStep [] with
  | error e => rw [hf] at h; simp [Bind.bind, Except.bind] at h
  | ok years =>
    rw [hf] at h
    simp only [Bind.bind, Except.bind, pure, Except.pure, Except.ok.injEq] at h
    subst h
    exact ⟨List.sorted_insertionSort _ _,
      ((List.perm_insertionSort _ _).nodup_iff).mpr
        (parseYears_foldlM_nodup _ _ List.nodup_nil _ hf)⟩

theorem parse_years_sorted_dedup_witness :
    ([2019, 2021, 2022, 2023] : List ℕ).Sorted (· ≤ ·) ∧
      ([2019, 2021, 2022, 2023] : List ℕ).Nodup :=
  parse_years_sorted_dedup.1 "2019,2021-2023" _ (by rfl)

/-- C9 (amended): `parse_years` returns normally on every input string whose
digit characters are decimal digits (on a component made only of non-decimal
digit characters such as the superscript `²`, `int()` raises `ValueError`,
see the counterexample), and it silently ignores empty components and
components that are neither a bare integer nor an integer-integer hyphen
range: the accumulated year set is unchanged, and `"abc"`, `""` and
`"2019-2021-2023"` all yield the empty list. -/
theorem parse_years_ignores_malformed :
    (∀ spec : String, (∀ c ∈ spec.data, pyIsDigitChar c = true → c.isDigit = true) →
      ∃ l, parse_years spec = .ok l) ∧
    (∀ (acc : List ℕ) (part : String), pyIsDigitStr (pyStrip part) = false →
      specHyphenRangeComponent (pyStrip part) = false →
      parseYearsStep acc part = .ok acc) ∧
    parse_years "abc" = .ok [] ∧ parse_years "" = .ok [] ∧
    parse_years "2019-2021-2023" = .ok [] := by
  refine ⟨?_, ?_, rfl, rfl, rfl⟩
  · intro spec hascii
    have hparts : ∀ part ∈ pySplit spec ',', ∀ c ∈ part.data,
        pyIsDigitChar c = true → c.isDigit = true := by
      intro part hp c hc
      unfold pySplit at hp
      rw [List.mem_map] at hp
      obtain ⟨t, ht, rfl⟩ := hp
      exact hascii c (mem_of_mem_splitOnCharList ht hc).1
    obtain ⟨years, hy⟩ := parseYears_foldlM_total _ hparts []
    refine ⟨years.insertionSort (· ≤ ·), ?_⟩
    unfold parse_years
    rw [hy]
    rfl
  · intro acc part h1 h2
    unfold specHyphenRangeComponent at h2
    simp only [parseYearsStep]
    split
    · rfl
    · split
      · rename_i hcont
        rw [hcont, Bool.true_and] at h2
        rw [if_neg (by rw [h2]; exact Bool.false_ne_true)]
        rfl
      · rw [if_neg (by rw [h1]; exact Bool.false_ne_true)]
        rfl

theorem parse_years_ignores_malformed_witness :
    (∃ l, parse_years "2019" = .ok l) ∧ parseYearsStep [7] "x-y" = .ok [7] :=
  ⟨parse_years_ignores_malformed.1 "2019" (by decide),
   parse_years_ignores_malformed.2.1 [7] "x-y" (by rfl) (by rfl)⟩

/-- C9 counterexample: the claim asserts `parse_years` never raises, but on
the input `"²"` — whose sole character passes `str.isdigit` — `int()`
raises `ValueError`, which propagates out of `parse_years`. -/
theorem parse_years_raises_on_superscript :
    parse_years "²" = .error "ValueError: invalid literal for int() with base 10: ²" := rfl


/-! ## Claim C3: the display-name filter -/

theorem getLastD_mem_of_ne_nil {α : Type} {l : List α} (h : l ≠ []) (d : α) :
    l.getLastD d ∈ l := by
  induction l with
  | nil => exact absurd rfl h
  | cons a t ih =>
    cases t with
    | nil => simp [List.getLastD]
    | cons b u =>
      have h2 : (a :: b :: u).getLastD d = (b :: u).getLastD d := by simp [List.getLastD]
      rw [h2]
      exact List.mem_cons_of_mem _ (ih (by simp))

theorem mem_collapseWsAux {c : Char} :
    ∀ {b : Bool} {l : List Char}, c ∈ collapseWsAux b l →
      c = ' ' ∨ (c ∈ l ∧ pyIsSpace c = false) := by
  intro b l
  induction l generalizing b with
  | nil => intro h; simp [collapseWsAux] at h
  | cons d rest ih =>
    intro h
    simp only [collapseWsAux] at h
    split at h
    · split at h
      · rcases ih h with h1 | h2
        · exact Or.inl h1
        · exact Or.inr ⟨List.mem_cons_of_mem _ h2.1, h2.2⟩
      · rcases List.mem_cons.mp h with h1 | h2
        · exact Or.inl h1
        · rcases ih h2 with h1 | h3
          · exact Or.inl h1
          · exact Or.inr ⟨List.mem_cons_of_mem _ h3.1, h3.2⟩
    · rcases List.mem_cons.mp h with h1 | h2
      · subst h1
        rename_i hd
        exact Or.inr ⟨List.mem_cons_self _ _, by simpa using hd⟩
      · rcases ih h2 with h1 | h3
        · exact Or.inl h1
        · exact Or.inr ⟨List.mem_cons_of_mem _ h3.1, h3.2⟩

theorem norm_token_no_newline {name t : String}
    (ht : t ∈ pySplit (papal_normalize_display_name name) ' ') : '\n' ∉ t.data := by
  intro hin
  unfold pySplit at ht
  rw [List.mem_map] at ht
  obtain ⟨tl, htl, rfl⟩ := ht
  have h1 := mem_of_mem_splitOnCharList htl hin
  have h2 : (papal_normalize_display_name name).data =
      collapseWsAux false (pyStripList name.data) := rfl
  rw [h2] at h1
  rcases mem_collapseWsAux h1.1 with hs | hns
  · exact absurd hs (by decide)
  · exact absurd hns.2 (by decide)

theorem matchDollar_eq_core {core : List Char → Bool} {w : String}
    (h : '\n' ∉ w.data) : pyMatchAnchoredDollar core w = core w.data := by
  unfold pyMatchAnchoredDollar
  have hl : (w.data.getLast? == some '\n') = false := by
    cases hl : w.data.getLast? with
    | none => rfl
    | some c =>
      by_cases hc : c = '\n'
      · subst hc; exact absurd (List.mem_of_mem_getLast? hl) h
      · simp [hc]
  rw [hl]
  simp

theorem is_titlecase_word_eq_spec {w : String} (h : '\n' ∉ w.data) :
    is_titlecase_word w = specTitlecaseWord w :=
  matchDollar_eq_core h

theorem is_roman_eq_spec {w : String} (h : '\n' ∉ w.data) :
    is_roman w = specRomanNumeralCI w :=
  matchDollar_eq_core h

/-- C3 (amended): the display-name filter accepts exactly the names whose
normalized form is a single capitalized word, or two or more words whose
last token is a Roman numeral matched case-insensitively (the source
compiles `^[IVXLCDM]+$` with `re.IGNORECASE`) with all preceding tokens
capitalized.  In particular `"Francis"`, `"John Paul II"` and — against the
original claim — `"Paul vi"` are accepted, while `"ROMAN CURIA"` is
rejected. -/
theorem looks_like_pope_display_characterization :
    looks_like_pope_display "Francis" = true ∧
    looks_like_pope_display "John Paul II" = true ∧
    looks_like_pope_display "ROMAN CURIA" = false ∧
    looks_like_pope_display "Paul vi" = true ∧
    ∀ name : String,
      looks_like_pope_display name = true ↔
        papal_normalize_display_name name ≠ "" ∧
          (((pySplit (papal_normalize_display_name name) ' ').length = 1 ∧
              specTitlecaseWord ((pySplit (papal_normalize_display_name name) ' ').headI) = true) ∨
            (2 ≤ (pySplit (papal_normalize_display_name name) ' ').length ∧
              specRomanNumeralCI
                ((pySplit (papal_normalize_display_name name) ' ').getLastD "") = true ∧
              ∀ w ∈ (pySplit (papal_normalize_display_name name) ' ').dropLast,
                specTitlecaseWord w = true)) := by
  refine ⟨rfl, rfl, rfl, rfl, ?_⟩
  intro name
  have hpsne : pySplit (papal_normalize_display_name name) ' ' ≠ [] := by
    unfold pySplit
    simp [splitOnCharList_ne_nil]
  have hlen1 : 1 ≤ (pySplit (papal_normalize_display_name name) ' ').length :=
    Nat.one_le_iff_ne_zero.mpr (by simpa using (List.length_pos.mpr hpsne).ne.symm)
  have hheadmem : (pySplit (papal_normalize_display_name name) ' ').headI ∈
      pySplit (papal_normalize_display_name name) ' ' := by
    obtain ⟨q, qs, hq⟩ := List.exists_cons_of_ne_nil hpsne
    rw [hq]; exact List.mem_cons_self _ _
  have hlastmem : (pySplit (papal_normalize_display_name name) ' ').getLastD "" ∈
      pySplit (papal_normalize_display_name name) ' ' :=
    getLastD_mem_of_ne_nil hpsne ""
  constructor
  · intro h
    simp only [looks_like_pope_display] at h
    split at h
    · exact absurd h (by simp)
    · rename_i hne
      refine ⟨hne, ?_⟩
      split at h
      · rename_i hl1
        exact Or.inl ⟨hl1, by
          rw [← is_titlecase_word_eq_spec (norm_token_no_newline hheadmem)]; exact h⟩
      · rename_i hlne
        split at h
        · exact absurd h (by simp)
        · rename_i hrom
          refine Or.inr ⟨by omega, ?_, ?_⟩
          · rw [← is_roman_eq_spec (norm_token_no_newline hlastmem)]
            simpa using hrom
          · intro w hw
            rw [← is_titlecase_word_eq_spec
              (norm_token_no_newline ((List.dropLast_sublist _).subset hw))]
            exact List.all_eq_true.mp h w hw
  · rintro ⟨hne, hd⟩
    simp only [looks_like_pope_display]
    rw [if_neg hne]
    rcases hd with ⟨hl1, hw⟩ | ⟨hl2, hr, hall⟩
    · rw [if_pos hl1, is_titlecase_word_eq_spec (norm_token_no_newline hheadmem)]
      exact hw
    · have hlne : ¬ (pySplit (papal_normalize_display_name name) ' ').length = 1 := by omega
      rw [if_neg hlne]
      have hromeq : is_roman ((pySplit (papal_normalize_display_name name) ' ').getLastD "") =
          true := by
        rw [is_roman_eq_spec (norm_token_no_newline hlastmem)]
        exact hr
      rw [if_neg (by rw [hromeq]; simp)]
      rw [List.all_eq_true]
      intro w hw
      rw [is_titlecase_word_eq_spec
        (norm_token_no_newline ((List.dropLast_sublist _).subset hw))]
      exact hall w hw

/-- C3 counterexample: the claim asserts `"Paul vi"` (lowercase Roman
numeral) is rejected, but the Roman-numeral pattern is compiled with
`re.IGNORECASE` (line 25 of `step01_list_popes.py`), so the filter accepts
it. -/
theorem looks_like_pope_display_accepts_lowercase_roman :
    looks_like_pope_display "Paul vi" = true := rfl


/-! ## Claim C7: section and language validation -/

/-- C7 (amended): the section validator raises whenever the *stripped*,
case-folded input fails `^[a-z][a-z0-9-]*$` (whitespace is stripped before
matching, see the counterexample for the unstripped reading), and the
per-pope pipeline entry point rejects an invalid language code or an invalid
section before any network request: on such inputs the outcome is an error
and is independent of the network-dependent continuation. -/
theorem validation_rejects_before_network :
    (∀ sect : String, pyMatchAnchoredDollar sectionPatCore (pyLower (pyStrip sect)) = false →
      sanitize_section sect = .error ("ValueError: Bad section " ++ sect)) ∧
    (∀ {α : Type} (rest₁ rest₂ : String → String → List ℕ → Except String α)
      (yearsSpec lang sect : String),
      (langCodeValid lang = false ∨
        pyMatchAnchoredDollar sectionPatCore (pyLower (pyStrip sect)) = false) →
      fetch_speeches_to_feather rest₁ yearsSpec lang sect =
          fetch_speeches_to_feather rest₂ yearsSpec lang sect ∧
        ∃ e, fetch_speeches_to_feather rest₁ yearsSpec lang sect = .error e) := by
  have hsan : ∀ sect : String,
      pyMatchAnchoredDollar sectionPatCore (pyLower (pyStrip sect)) = false →
      sanitize_section sect = .error ("ValueError: Bad section " ++ sect) := by
    intro sect h
    unfold sanitize_section
    rw [if_neg (by rw [h]; exact Bool.false_ne_true)]
  refine ⟨hsan, ?_⟩
  intro α rest₁ rest₂ yearsSpec lang sect h
  have hval : ∃ e, fetchSpeechesValidate yearsSpec lang sect = .error e := by
    unfold fetchSpeechesValidate
    rcases h with hlang | hsect
    · rw [hlang]
      exact ⟨_, rfl⟩
    · by_cases hl : langCodeValid lang = true
      · refine ⟨"ValueError: Bad section " ++ sect, ?_⟩
        rw [hl]
        show (do
          let sec ← sanitize_section sect
          let years ← parse_years yearsSpec
          if years.isEmpty then
            (.error "SystemExit: No valid years parsed from --years." :
              Except String (String × String × List ℕ))
          else
            return (pyUpper (pyStrip lang), sec, years)) = _
        rw [hsan sect hsect]
        rfl
      · rw [Bool.eq_false_iff.mpr hl]
        exact ⟨_, rfl⟩
  obtain ⟨e, he⟩ := hval
  unfold fetch_speeches_to_feather
  rw [he]
  exact ⟨rfl, e, rfl⟩

theorem validation_rejects_before_network_witness :
    (sanitize_section "bad section!" = .error "ValueError: Bad section bad section!") ∧
    (fetch_speeches_to_feather (fun _ _ _ => .ok 0) "2020" "english" "angelus" =
        fetch_speeches_to_feather (fun _ _ _ => .ok 1) "2020" "english" "angelus" ∧
      ∃ e, fetch_speeches_to_feather (fun _ _ _ => (.ok 0 : Except String ℕ))
          "2020" "english" "angelus" = .error e) :=
  ⟨validation_rejects_before_network.1 "bad section!" (by rfl),
   validation_rejects_before_network.2 (fun _ _ _ => .ok 0) (fun _ _ _ => .ok 1)
     "2020" "english" "angelus" (Or.inl (by rfl))⟩

/-- C7 counterexample: the claim quantifies over every section string whose
case-folded form fails the regex, but the validator strips whitespace before
matching: the case-folded form of `" Angelus "` does not match
`^[a-z][a-z0-9-]*$`, yet `_sanitize_section` returns `"angelus"` instead of
raising. -/
theorem sanitize_section_accepts_padded_section :
    specSectionCaseFoldMatches " Angelus " = false ∧
      sanitize_section " Angelus " = .ok "angelus" := ⟨rfl, rfl⟩


/-! ## Claim C10: extract_links_from_container -/

theorem dedupFirstOccurrence_nil {α : Type} [DecidableEq α] :
    dedupFirstOccurrence ([] : List α) = [] := by
  simp [dedupFirstOccurrence]

theorem dedupFirstOccurrence_cons {α : Type} [DecidableEq α] (x : α) (xs : List α) :
    dedupFirstOccurrence (x :: xs) = x :: dedupFirstOccurrence (xs.filter (· ≠ x)) := by
  simp [dedupFirstOccurrence]

theorem extractLinksLoop_eq_dedup (uj : String → String → String) (baseUrl : String) :
    ∀ (anchors seen : List String),
      extractLinksLoop uj baseUrl anchors seen =
        dedupFirstOccurrence
          ((anchors.filterMap (specNormalizedLink uj baseUrl)).filter (fun u => u ∉ seen)) := by
  intro anchors
  induction anchors with
  | nil => intro seen; simp [extractLinksLoop, dedupFirstOccurrence_nil]
  | cons a rest ih =>
    intro seen
    simp only [extractLinksLoop, List.filterMap_cons, specNormalizedLink]
    by_cases h1 : pyStrip a = ""
    · rw [if_pos h1, if_pos h1]
      exact ih seen
    · rw [if_neg h1, if_neg h1]
      by_cases h2 : (pyStartsWith (pyStrip a) "mailto:" || pyStartsWith (pyStrip a) "javascript:" ||
          pyStartsWith (pyStrip a) "tel:") = true
      · rw [if_pos h2, if_pos h2]
        exact ih seen
      · rw [if_neg h2, if_neg h2]
        simp only [List.filter_cons]
        by_cases h3 : urldefragStr (uj baseUrl (pyStrip a)) ∈ seen
        · rw [if_pos h3]
          rw [if_neg (by simpa using h3)]
          exact ih seen
        · rw [if_neg h3]
          rw [if_pos (by simpa using h3)]
          rw [dedupFirstOccurrence_cons]
          congr 1
          rw [ih (urldefragStr (uj baseUrl (pyStrip a)) :: seen)]
          congr 1
          rw [List.filter_filter]
          refine List.filter_congr ?_
          intro x hx
          simp only [List.mem_cons, decide_not]
          by_cases hxu : x = urldefragStr (uj baseUrl (pyStrip a))
          · simp [hxu]
          · simp [hxu]

/-- C10: `extract_links_from_container` returns the empty list for a `None`
container, and otherwise the container's anchor hrefs — stripped, excluding
empty hrefs and those starting with `mailto:`, `javascript:` or `tel:` —
resolved against the base URL with fragments removed, deduplicated keeping
the first occurrence in document order. -/
theorem extract_links_from_container_spec :
    ∀ (uj : String → String → String) (baseUrl : String) (container : Option (List String)),
      extract_links_from_container uj container baseUrl =
        match container with
        | none => []
        | some anchors =>
          dedupFirstOccurrence (anchors.filterMap (specNormalizedLink uj baseUrl)) := by
  intro uj baseUrl container
  cases container with
  | none => rfl
  | some anchors =>
    show extractLinksLoop uj baseUrl anchors [] = _
    rw [extractLinksLoop_eq_dedup]
    congr 1
    simp


/-! ## Claim C2: the URL existence check vs. the persistence layer -/

/-- C2 (code evaluated at the failing input): after storing a record with
URL `sampleSpeechUrl` through the persistence layer into a fresh database,
the stored row is present in `texts`, yet `speech_url_exists_in_db` returns
`False` for that URL: its query `SELECT 1 FROM speeches WHERE url = ?`
names a table that the persistence schema never creates, so the bare
`except:` swallows the `OperationalError` and the pipeline never skips a
stored speech. -/
theorem speech_url_exists_misses_stored_record :
    ((add_content_to_db emptyDBFile sampleRecord false "t0").2.textsTbl.getD []).any
        (fun t => t.url == some sampleSpeechUrl) = true ∧
      speech_url_exists_in_db (add_content_to_db emptyDBFile sampleRecord false "t0").2
        sampleSpeechUrl = false := by
  exact ⟨rfl, rfl⟩

/-! ## Claim C8: referential integrity of the persistence layer -/

theorem popeUpsert_texts_subset (r : SpeechRecordDict) (replace : Bool) (now : String)
    (popes : List PopeRow) (texts : List TextRow) :
    (popeUpsert r replace now popes texts).2.1 ⊆ texts := by
  unfold popeUpsert
  split
  · intro t ht
    exact (List.mem_filter.mp ht).1
  · split
    · exact fun t ht => ht
    · exact fun t ht => ht

theorem popeUpsert_integrity (r : SpeechRecordDict) (replace : Bool) (now : String)
    (popes : List PopeRow) (texts : List TextRow)
    (h : ∀ t ∈ texts, ∃ p ∈ popes, p.id = t.popeId) :
    ∀ t ∈ (popeUpsert r replace now popes texts).2.1,
      ∃ p ∈ (popeUpsert r replace now popes texts).1, p.id = t.popeId := by
  unfold popeUpsert
  split
  · intro t ht
    simp only [List.mem_filter] at ht
    obtain ⟨p, hp, hpid⟩ := h t ht.1
    refine ⟨p, ?_, hpid⟩
    apply List.mem_append_left
    rw [List.mem_filter]
    refine ⟨hp, ?_⟩
    by_contra hconf
    rw [Bool.not_eq_true, Bool.not_eq_false'] at hconf
    have hin : t.popeId ∈ (popes.filter fun q => popeKeyConflict r q).map (·.id) := by
      rw [List.mem_map]
      exact ⟨p, List.mem_filter.mpr ⟨hp, hconf⟩, hpid⟩
    rw [decide_eq_true_iff] at ht
    exact ht.2 hin
  · split
    · intro t ht
      obtain ⟨p, hp, hpid⟩ := h t ht
      exact ⟨p, hp, hpid⟩
    · intro t ht
      obtain ⟨p, hp, hpid⟩ := h t ht
      exact ⟨p, List.mem_append_left _ hp, hpid⟩

theorem findPopeId_mem {r : SpeechRecordDict} {popes : List PopeRow} {pid : ℕ}
    (h : findPopeId r popes = some pid) : ∃ p ∈ popes, p.id = pid := by
  unfold findPopeId at h
  cases hf : popes.find? fun q => sqlEqOpt q.name r.pope && sqlEqOpt q.number r.pope_number with
  | none => rw [hf] at h; simp at h
  | some p =>
    rw [hf] at h
    simp at h
    exact ⟨p, List.mem_of_find?_eq_some hf, h⟩

theorem textUpsert_shape (r : SpeechRecordDict) (replace : Bool) (now : String) (pid : ℕ)
    (texts : List TextRow) (lr : Option ℕ) :
    ∀ t ∈ (textUpsert r replace now pid texts lr).1, t ∈ texts ∨ t.popeId = pid := by
  unfold textUpsert
  split
  · intro t ht
    rcases List.mem_append.mp ht with h1 | h2
    · exact Or.inl (List.mem_filter.mp h1).1
    · rw [List.mem_singleton.mp h2]
      exact Or.inr rfl
  · split
    · exact fun t ht => Or.inl ht
    · intro t ht
      rcases List.mem_append.mp ht with h1 | h2
      · exact Or.inl h1
      · rw [List.mem_singleton.mp h2]
        exact Or.inr rfl

/-- C8: `add_content_to_db` upserts the pope row first, then resolves its
surrogate id — aborting with `ValueError` before inserting any text row when
the lookup fails — so referential integrity (every `texts` row references an
existing `popes` row) is preserved by every call, and on the error path no
new text row appears. -/
theorem add_content_to_db_ref_integrity :
    ∀ (db : VaticanDB) (r : SpeechRecordDict) (replace : Bool) (now : String),
      refIntegrity db →
      refIntegrity (add_content_to_db db r replace now).2 ∧
        ∀ e, (add_content_to_db db r replace now).1 = .error e →
          (add_content_to_db db r replace now).2.textsTbl.getD [] ⊆ db.textsTbl.getD [] := by
  intro db r replace now hint
  have hint0 : ∀ t ∈ db.textsTbl.getD [], ∃ p ∈ db.popesTbl.getD [], p.id = t.popeId := hint
  unfold add_content_to_db
  cases hf : findPopeId r (popeUpsert r replace now (db.popesTbl.getD []) (db.textsTbl.getD [])).1 with
  | none =>
    simp only [ensure_db_and_table, hf, Option.getD_some]
    constructor
    · intro t ht
      exact popeUpsert_integrity r replace now _ _ hint0 t ht
    · intro e _ t ht
      exact popeUpsert_texts_subset r replace now _ _ ht
  | some pid =>
    simp only [ensure_db_and_table, hf, Option.getD_some]
    constructor
    · intro t ht
      rcases textUpsert_shape r replace now pid _ _ t ht with h1 | h2
      · exact popeUpsert_integrity r replace now _ _ hint0 t h1
      · obtain ⟨p, hp, hpid⟩ := findPopeId_mem hf
        exact ⟨p, hp, h2 ▸ hpid⟩
    · intro e he
      simp at he

theorem add_content_to_db_ref_integrity_witness :
    refIntegrity (add_content_to_db emptyDBFile sampleRecord false "t0").2 ∧
      (add_content_to_db emptyDBFile noPopeRecord false "t0").2.textsTbl.getD [] ⊆
        emptyDBFile.textsTbl.getD [] :=
  ⟨(add_content_to_db_ref_integrity emptyDBFile sampleRecord false "t0"
      (fun t ht => absurd ht (by simp [emptyDBFile]))).1,
   (add_content_to_db_ref_integrity emptyDBFile noPopeRecord false "t0"
      (fun t ht => absurd ht (by simp [emptyDBFile]))).2
     "ValueError: Pope not found in database." (by rfl)⟩

/-! ## Claim C4: idempotence of the upsert -/

/-- C4: starting from a fresh database, upserting a record (with non-null
pope name, pope number, title and date) twice with the ignore policy leaves
exactly one `texts` row for its `(pope_id, title, date)` natural key, leaves
the table unchanged on the second call, and the second call returns the
zero sentinel text id; with the replace policy the row count is also one and
the single row carries the second call's content and timestamp. -/
theorem add_content_to_db_idempotent :
    ∀ (pn pnum tt dd now1 now2 : String) (slug secn bp sct yr pb pe loc lng txt u : Option String),
      let r : SpeechRecordDict :=
        ⟨some pn, slug, some pnum, secn, bp, sct, yr, pb, pe, some dd, loc, some tt, lng, txt, u⟩
      (add_content_to_db (add_content_to_db emptyDBFile r false now1).2 r false now2).1 =
          .ok (0, 1) ∧
        ((add_content_to_db (add_content_to_db emptyDBFile r false now1).2 r false
              now2).2.textsTbl.getD []).countP (fun t => textKeyConflict r 1 t) = 1 ∧
        (add_content_to_db (add_content_to_db emptyDBFile r false now1).2 r false
            now2).2.textsTbl = (add_content_to_db emptyDBFile r false now1).2.textsTbl ∧
        (add_content_to_db (add_content_to_db emptyDBFile r true now1).2 r true now2).1 =
          .ok (1, 1) ∧
        (add_content_to_db (add_content_to_db emptyDBFile r true now1).2 r true
            now2).2.textsTbl = some [newTextRow r 1 now2 1] ∧
        ((add_content_to_db (add_content_to_db emptyDBFile r true now1).2 r true
              now2).2.textsTbl.getD []).countP (fun t => textKeyConflict r 1 t) = 1 := by
  intro pn pnum tt dd now1 now2 slug secn bp sct yr pb pe loc lng txt u r
  refine ⟨?_, ?_, ?_, ?_, ?_, ?_⟩ <;>
    simp [r, add_content_to_db, ensure_db_and_table, emptyDBFile, popeUpsert, textUpsert,
      findPopeId, newPopeRow, newTextRow, popeKeyConflict, textKeyConflict, sqlEqOpt,
      nextRowId, List.countP_cons]


/-! ## Claim C1: translation-candidate resolution -/

theorem similarityThreshold_eq_995div1000 : similarityThreshold = 995 / 1000 := by
  rw [show similarityThreshold = Rat.divInt 199 200 from Rat.mk'_eq_divInt]
  rw [Rat.divInt_eq_div]
  norm_num

theorem tryTranslationCandidates_some_not_same {H : Type} (O : HtmlOracle H)
    (repair : String → String) (ratioFn : String → String → ℚ)
    (wantLang : String) (baseText : Option String) :
    ∀ (cands : List String) (fu : String) (h : H),
      tryTranslationCandidates O repair ratioFn wantLang baseText cands = some (fu, h) →
      is_effectively_same_text repair ratioFn baseText (O.textOfHtml h) = false := by
  intro cands
  induction cands with
  | nil =>
    intro fu h hh
    simp [tryTranslationCandidates] at hh
  | cons c rest ih =>
    intro fu h hh
    simp only [tryTranslationCandidates] at hh
    cases hf : O.fetchWithFinalUrl c with
    | none =>
      rw [hf] at hh
      exact ih fu h hh
    | some p =>
      obtain ⟨cfu, ch⟩ := p
      simp only [hf] at hh
      split at hh
      · exact ih fu h hh
      · split at hh
        · exact ih fu h hh
        · split at hh
          · exact ih fu h hh
          · rename_i hsame
            rw [Option.some.injEq, Prod.mk.injEq] at hh
            rw [← hh.2]
            exact Bool.eq_false_iff.mpr hsame
  
theorem same_text_false_ratio_small {repair : String → String}
    {ratioFn : String → String → ℚ} {a b : Option String}
    (hfalse : is_effectively_same_text repair ratioFn a b = false)
    (hlen : 300 ≤ min (norm_text_for_compare repair a).data.length
        (norm_text_for_compare repair b).data.length) :
    ratioFn (norm_text_for_compare repair a) (norm_text_for_compare repair b) < 995 / 1000 := by
  have ha : ¬ (norm_text_for_compare repair a = "") := by
    intro he
    have h0 : (norm_text_for_compare repair a).data.length = 0 := by rw [he]; rfl
    omega
  have hb : ¬ (norm_text_for_compare repair b = "") := by
    intro he
    have h0 : (norm_text_for_compare repair b).data.length = 0 := by rw [he]; rfl
    omega
  unfold is_effectively_same_text at hfalse
  rw [if_neg (by simp [ha, hb])] at hfalse
  rw [if_neg (by omega)] at hfalse
  rw [← similarityThreshold_eq_995div1000]
  exact not_le.mp (by simpa using hfalse)

/-- C1 (amended): a translation candidate accepted by the resolution loop is
never effectively the same as the base text; in particular, when both
normalized texts are at least 300 characters long (the guard in
`_is_effectively_same_text`), an accepted candidate's similarity ratio is
strictly below 0.995.  And when the requested language differs from the base
language and no candidate is accepted, the persisted row carries the
sentinel text, the base page's final URL, and a *null* `lang_available`
field (not the base language). -/
theorem translation_rejects_near_identical :
    ∀ {H : Type} (O : HtmlOracle H) (repair : String → String)
      (ratioFn : String → String → ℚ) (wantLang baseFinalUrl : String)
      (baseHtml : H) (candidates : List String),
      (∀ (fu : String) (h : H),
        tryTranslationCandidates O repair ratioFn wantLang (O.textOfHtml baseHtml)
            candidates = some (fu, h) →
          is_effectively_same_text repair ratioFn (O.textOfHtml baseHtml)
              (O.textOfHtml h) = false ∧
            (300 ≤ min (norm_text_for_compare repair (O.textOfHtml baseHtml)).data.length
                (norm_text_for_compare repair (O.textOfHtml h)).data.length →
              ratioFn (norm_text_for_compare repair (O.textOfHtml baseHtml))
                  (norm_text_for_compare repair (O.textOfHtml h)) < 995 / 1000)) ∧
      (wantLang ≠ pyOrStr (lang_from_url baseFinalUrl) (pyOrStr (O.langOfHtml baseHtml) "EN") →
        tryTranslationCandidates O repair ratioFn wantLang (O.textOfHtml baseHtml)
            candidates = none →
        speechLangRowOf O repair ratioFn wantLang baseFinalUrl baseHtml candidates =
          { url := baseFinalUrl, langAvailable := none,
            text := some "Not available in the requested language." }) := by
  intro H O repair ratioFn wantLang baseFinalUrl baseHtml candidates
  constructor
  · intro fu h hh
    have hfalse := tryTranslationCandidates_some_not_same O repair ratioFn wantLang
      (O.textOfHtml baseHtml) candidates fu h hh
    exact ⟨hfalse, fun hlen => same_text_false_ratio_small hfalse hlen⟩
  · intro hne hnone
    have hb : pyOrStr (lang_from_url baseFinalUrl) (pyOrStr (O.langOfHtml baseHtml) "EN") ≠
        wantLang := fun heq => hne heq.symm
    simp [speechLangRowOf, hnone, hne, hb]

set_option maxRecDepth 8000 in
theorem translation_rejects_near_identical_witness :
    (is_effectively_same_text id ratioEqOne (some longBase) (some longCand) = false ∧
      ratioEqOne (norm_text_for_compare id (some longBase))
          (norm_text_for_compare id (some longCand)) < 995 / 1000) ∧
      speechLangRowOf (fixtureOracle longCand) id ratioEqOne "IT" enBaseUrl longBase [] =
        { url := enBaseUrl, langAvailable := none,
          text := some "Not available in the requested language." } := by
  have h1 := (translation_rejects_near_identical (fixtureOracle longCand) id ratioEqOne
    "IT" enBaseUrl longBase [itCandidateUrl]).1 itCandidateUrl longCand (by rfl)
  have h2 := (translation_rejects_near_identical (fixtureOracle longCand) id ratioEqOne
    "IT" enBaseUrl longBase []).2 (by decide) rfl
  exact ⟨⟨h1.1, h1.2 (by decide)⟩, h2⟩

/-- C1 counterexample: the claim says a candidate whose text has similarity
ratio at least 0.995 to the base text is never accepted, but the comparison
is skipped whenever the shorter normalized text has fewer than 300
characters: a short candidate *identical* to the base page (similarity
exactly 1, as `difflib` reports for equal strings) passes every check and is
accepted as a valid translation. -/
theorem near_identical_short_translation_accepted :
    tryTranslationCandidates (fixtureOracle shortBody) id ratioEqOne "IT" (some shortBody)
        [itCandidateUrl] = some (itCandidateUrl, shortBody) ∧
      (995 : ℚ) / 1000 ≤ ratioEqOne (norm_text_for_compare id (some shortBody))
          (norm_text_for_compare id (some shortBody)) := by
  constructor
  · rfl
  · have h1 : ratioEqOne (norm_text_for_compare id (some shortBody))
        (norm_text_for_compare id (some shortBody)) = 1 := by simp [ratioEqOne]
    rw [h1]
    norm_num


/-! ## Claim C5: month aggregation for the speeches section -/

theorem sanitize_section_speeches : sanitize_section "speeches" = .ok "speeches" := rfl

theorem extract_speeches_ok (uj : String → String → String) (page : Page)
    (pageUrl slug : String) :
    extract_speeches_from_year_index uj page pageUrl slug "speeches" =
      .ok (extractSpeechesLoop uj pageUrl slug "speeches" page.docItems []) := rfl

theorem extractSpeechesLoop_nodup (uj : String → String → String)
    (pageUrl slug sec : String) :
    ∀ (items : List LiItem) (seen : List String),
      ((extractSpeechesLoop uj pageUrl slug sec items seen).map (·.url)).Nodup ∧
        ∀ u ∈ (extractSpeechesLoop uj pageUrl slug sec items seen).map (·.url), u ∉ seen := by
  intro items
  induction items with
  | nil => intro seen; simp [extractSpeechesLoop]
  | cons li rest ih =>
    intro seen
    simp only [extractSpeechesLoop]
    cases li.anchor with
    | none => exact ih seen
    | some a =>
      simp only []
      split
      · exact ih seen
      · split
        · exact ih seen
        · split
          · exact ih seen
          · rename_i hsub1 hsub2 hseen
            simp only [List.map_cons]
            obtain ⟨ihn, ihm⟩ := ih (uj pageUrl a.href :: seen)
            refine ⟨List.nodup_cons.mpr ⟨?_, ihn⟩, ?_⟩
            · intro hmem
              exact (ihm _ hmem) (List.mem_cons_self _ _)
            · intro u hu
              rcases List.mem_cons.mp hu with h1 | h2
              · rw [h1]; exact hseen
              · intro hus
                exact (ihm u h2) (List.mem_cons_of_mem _ hus)

theorem mapM_extract_speeches_ok (uj : String → String → String) (slug : String)
    (fetcher : String → Page) :
    ∀ mu : List String,
      (mu.mapM fun m => extract_speeches_from_year_index uj (fetcher m) m slug "speeches") =
        .ok (mu.map fun m => extractSpeechesLoop uj m slug "speeches" (fetcher m).docItems []) := by
  intro mu
  induction mu with
  | nil => rfl
  | cons m rest ih =>
    rw [List.mapM_cons, extract_speeches_ok, ih]
    rfl

/-- C5 (amended): when a year-index page yields zero speech items for the
month-paginated `speeches` section, `collect_speeches_for_year_index`
discovers month sub-page links (retrying the non-index variant of the year
URL when the index variant has none), fetches each month page, and returns
the *concatenation* of the month pages' extracted speech stubs — each month
page's stubs deduplicated by absolute URL within that page, while a URL
appearing on two different month pages is kept twice (see the
counterexample). -/
theorem collect_speeches_month_aggregation :
    ∀ (uj : String → String → String) (fetcher : String → Page) (idxPage : Page)
      (idxUrl slug year : String),
      extract_speeches_from_year_index uj idxPage idxUrl slug "speeches" = .ok [] →
      collect_speeches_for_year_index uj fetcher idxPage idxUrl slug "speeches" year =
          .ok ((monthUrlsFor uj fetcher idxPage idxUrl slug year).map fun m =>
            extractSpeechesLoop uj m slug "speeches" (fetcher m).docItems []).flatten ∧
        ∀ m ∈ monthUrlsFor uj fetcher idxPage idxUrl slug year,
          ((extractSpeechesLoop uj m slug "speeches" (fetcher m).docItems []).map
            (·.url)).Nodup := by
  intro uj fetcher idxPage idxUrl slug year h0
  constructor
  · unfold collect_speeches_for_year_index
    rw [h0]
    simp only [Bind.bind, Except.bind]
    rw [if_pos (show ([] : List SpeechStub).isEmpty = true from rfl)]
    simp only [sanitize_section_speeches]
    simp only [if_true]
    simp only [mapM_extract_speeches_ok]
    simp [pure, Except.pure]
  · intro m _
    exact (extractSpeechesLoop_nodup uj m slug "speeches" (fetcher m).docItems []).1

theorem collect_speeches_month_aggregation_witness :
    collect_speeches_for_year_index ujId monthFetcher yearIdxPage idxUrl2024
        "francesco" "speeches" "2024" =
      .ok ((monthUrlsFor ujId monthFetcher yearIdxPage idxUrl2024 "francesco" "2024").map
        fun m => extractSpeechesLoop ujId m "francesco" "speeches"
          (monthFetcher m).docItems []).flatten :=
  (collect_speeches_month_aggregation ujId monthFetcher yearIdxPage idxUrl2024
    "francesco" "2024" (by rfl)).1

/-- C5 counterexample: a speech URL listed on two different month pages is
returned twice — deduplication happens only within a single month page (the
`seen` set of `extract_speeches_from_year_index` is per call), so the
aggregate is not deduplicated by absolute URL as the claim states. -/
theorem collect_speeches_not_dedup_across_months :
    collect_speeches_for_year_index ujId monthFetcher yearIdxPage idxUrl2024
        "francesco" "speeches" "2024" = .ok [speechStub1, speechStub1] ∧
      ¬ (([speechStub1, speechStub1].map (·.url)).Nodup) := by
  constructor
  · rfl
  · simp [speechStub1]

end VaticanScraper
